import Mathlib

/-!
Verification development for the banking-dashboard script (`src/a.py`).

The script loads a spreadsheet, cleans a numeric `Rs` column, derives a
first-seen month ordering (`Month_Num`), filters rows by "All"-or-subset
selections on `Particulars` and `Month`, aggregates per month, pivots,
computes month-over-month changes and formats values for display.  The
definitions below are a shallow embedding of that code: pandas cells
become an inductive `Cell`, nullable floats become `Option Rat` (with an
extended domain `PVal` where IEEE infinities matter), dataframes become
lists of records, and the fallible steps return `Except`.
-/

/-- A raw cell of the spreadsheet's value column: either empty (NA), a
string, or a numeric value. -/
inductive Cell where
  | na : Cell
  | sval : String → Cell
  | nval : Rat → Cell
deriving DecidableEq

/-- Step 1 of the `Rs` cleaning (`df['Rs'].replace('-', pd.NA)`): a cell
equal to the dash placeholder becomes NA, all other cells are kept. -/
def replaceDashNA (c : Cell) : Cell :=
  if c = Cell.sval "-" then Cell.na else c

/-- Step 2 of the `Rs` cleaning (`pd.to_numeric(..., errors='coerce')`):
NA stays missing, numbers are kept, and strings go through the numeric
parser, unparseable ones becoming missing.  The parser itself is the
pandas library's and is passed as a parameter. -/
def toNumericCoerce (parse : String → Option Rat) : Cell → Option Rat
  | Cell.na => none
  | Cell.nval q => some q
  | Cell.sval s => parse s

/-- The full `Rs` coercion of `load_data` (lines 103-104): dash
replacement followed by numeric coercion. -/
def coerceRs (parse : String → Option Rat) (c : Cell) : Option Rat :=
  toNumericCoerce parse (replaceDashNA c)

/-- A concrete decimal-digit parser, used to instantiate the `parse`
parameter on concrete inputs. -/
def parseNat (s : String) : Option Rat :=
  if s.data ≠ [] ∧ s.data.all (fun c => c.isDigit) then
    some ((s.data.foldl (fun n c => n * 10 + (c.toNat - 48)) 0 : Nat) : Rat)
  else none

/-- One cleaned row of the "Data" table: `Particulars`, `Month`, and the
coerced `Rs` value (missing cells are `none`). -/
structure Record where
  particular : String
  month : String
  rs : Option Rat
deriving DecidableEq

/-- The `Month` column of a row list. -/
def monthsOf (rows : List Record) : List String := rows.map (·.month)

/-- The `Particulars` column of a row list. -/
def particularsOf (rows : List Record) : List String := rows.map (·.particular)

/-- Distinct elements in first-seen order, as `pandas.Series.unique`
returns them (accumulator holds the labels already seen). -/
def uniqueFirstSeenAux (seen : List String) : List String → List String
  | [] => []
  | m :: rest =>
      if m ∈ seen then uniqueFirstSeenAux seen rest
      else m :: uniqueFirstSeenAux (m :: seen) rest

/-- `df['Month'].unique()`: distinct month labels in first-seen order. -/
def uniqueFirstSeen (l : List String) : List String := uniqueFirstSeenAux [] l

/-- Index of the first occurrence of a label in a list (the lookup in
the dict `{month: i for i, month in enumerate(...)}`). -/
def idxOfStr (m : String) : List String → Nat
  | [] => 0
  | x :: rest => if x = m then 0 else idxOfStr m rest + 1

/-- `month_order[m]` of `load_data` line 107: the rank of a month label
in the first-seen ordering of the month column. -/
def monthRank (months : List String) (m : String) : Nat :=
  idxOfStr m (uniqueFirstSeen months)

/-- `df['Month_Num'] = df['Month'].map(month_order)` (line 108): every
row is annotated with the rank of its month label. -/
def attachMonthNum (rows : List Record) : List (Record × Nat) :=
  rows.map (fun r => (r, monthRank (monthsOf rows) r.month))

/-- The filter of lines 141-146: a dimension is constrained by `isin`
only when the sentinel "All" is not among the selected labels. -/
def filtered_df (selP selM : List String) (rows : List Record) : List Record :=
  let rows1 :=
    if "All" ∈ selP then rows
    else rows.filter (fun r => decide (r.particular ∈ selP))
  if "All" ∈ selM then rows1
  else rows1.filter (fun r => decide (r.month ∈ selM))

/-- The three-row example data set used throughout the spec. -/
def exampleRows : List Record :=
  [⟨"A", "Jan", some 100⟩, ⟨"A", "Feb", some 200⟩, ⟨"B", "Jan", some 50⟩]

/-- A pandas float value: missing (NaN), positive or negative infinity,
or a finite number (modelled as a rational). -/
inductive PVal where
  | na : PVal
  | inf : PVal
  | ninf : PVal
  | num : Rat → PVal
deriving DecidableEq

/-- IEEE-style subtraction on pandas float values: NaN propagates,
opposite infinities absorb finite numbers, same-sign infinity
differences are NaN. -/
def psub : PVal → PVal → PVal
  | PVal.na, _ => PVal.na
  | _, PVal.na => PVal.na
  | PVal.num a, PVal.num b => PVal.num (a - b)
  | PVal.inf, PVal.inf => PVal.na
  | PVal.inf, _ => PVal.inf
  | PVal.ninf, PVal.ninf => PVal.na
  | PVal.ninf, _ => PVal.ninf
  | PVal.num _, PVal.inf => PVal.ninf
  | PVal.num _, PVal.ninf => PVal.inf

/-- IEEE-style division on pandas float values: a nonzero number over
zero is a signed infinity, zero over zero is NaN, NaN propagates, a
finite number over an infinity is zero. -/
def pdiv : PVal → PVal → PVal
  | PVal.na, _ => PVal.na
  | _, PVal.na => PVal.na
  | PVal.num a, PVal.num b =>
      if b ≠ 0 then PVal.num (a / b)
      else if 0 < a then PVal.inf
      else if a < 0 then PVal.ninf
      else PVal.na
  | PVal.inf, PVal.num b => if 0 ≤ b then PVal.inf else PVal.ninf
  | PVal.ninf, PVal.num b => if 0 ≤ b then PVal.ninf else PVal.inf
  | PVal.num _, _ => PVal.num 0
  | _, _ => PVal.na

/-- Multiplication by the scalar 100 (`* 100` on a pandas column). -/
def pmul100 : PVal → PVal
  | PVal.na => PVal.na
  | PVal.inf => PVal.inf
  | PVal.ninf => PVal.ninf
  | PVal.num q => PVal.num (q * 100)

/-- `series.shift(1)`: NaN in front, every value moved one slot down,
the last value dropped; the length is unchanged. -/
def shift1 (vs : List PVal) : List PVal :=
  (PVal.na :: vs).take vs.length

/-- The `Change` column of `month_comparison` (line 542):
`Rs - Previous Month`, elementwise over the month-ordered series. -/
def changeCol (vs : List PVal) : List PVal :=
  List.zipWith psub vs (shift1 vs)

/-- The `% Change` column of `month_comparison` (line 543):
`Change / Previous Month * 100`, elementwise. -/
def pctChangeCol (vs : List PVal) : List PVal :=
  List.zipWith (fun c p => pmul100 (pdiv c p)) (changeCol vs) (shift1 vs)

/-- Ordered insertion of a string into a list (helper for the sorted
group keys that `groupby` produces). -/
def insertSortedStr (s : String) : List String → List String
  | [] => [s]
  | t :: rest => if t < s then t :: insertSortedStr s rest else s :: t :: rest

/-- Insertion sort on strings (ascending), modelling the sorted group
keys produced by `groupby('Month')` (pandas sorts keys by default). -/
def sortStr (l : List String) : List String := l.foldr insertSortedStr []

/-- The non-missing `Rs` values of the rows of one month group. -/
def monthGroupVals (rows : List Record) (m : String) : List Rat :=
  (rows.filter (fun r => r.month == m)).filterMap (·.rs)

/-- One aggregated row of `groupby('Month')['Rs'].agg(['sum','mean','count'])`:
month key, skip-null sum (0 for an all-missing group), skip-null mean
(missing for an all-missing group), count of non-missing values. -/
def aggRow (rows : List Record) (m : String) : String × Rat × Option Rat × Nat :=
  let vs := monthGroupVals rows m
  (m, vs.foldl (· + ·) 0,
   if vs.length = 0 then none else some (vs.foldl (· + ·) 0 / (vs.length : Rat)),
   vs.length)

/-- The aggregation half of `monthly_summary` (line 249): one row per
distinct month, keys sorted ascending as `groupby` returns them. -/
def groupAgg (rows : List Record) : List (String × Rat × Option Rat × Nat) :=
  (sortStr (uniqueFirstSeen (monthsOf rows))).map (aggRow rows)

/-- The columns of the aggregated frame after `reset_index()`: the
`Month_Num` column is no longer among them. -/
def summaryCols : List String := ["Month", "sum", "mean", "count"]

/-- `DataFrame.sort_values(by=...)`: pandas first resolves the `by`
label against the frame's columns and raises `KeyError` when it is
absent; only then would it sort. -/
def sort_values (cols : List String) (byCol : String)
    (rowsS : List (String × Rat × Option Rat × Nat)) :
    Except String (List (String × Rat × Option Rat × Nat)) :=
  if byCol ∈ cols then Except.ok rowsS
  else Except.error ("KeyError: " ++ byCol)

/-- `monthly_summary` of lines 249-250: aggregate per month, then sort
the aggregated frame by its `Month_Num` column. -/
def monthly_summary (rows : List Record) :
    Except String (List (String × Rat × Option Rat × Nat)) :=
  sort_values summaryCols "Month_Num" (groupAgg rows)

/-- The rows of one `(month, particular)` pivot group. -/
def pairRows (rows : List Record) (m p : String) : List Record :=
  rows.filter (fun r => r.month == m && r.particular == p)

/-- One cell of `pd.pivot_table(..., values='Rs', index='Month',
columns='Particulars', aggfunc='sum')`: missing when no row has the
`(month, particular)` pair, otherwise the skip-null sum of the group. -/
def pivotCell (rows : List Record) (m p : String) : Option Rat :=
  let g := pairRows rows m p
  if g.isEmpty then none
  else some ((g.filterMap (·.rs)).foldl (· + ·) 0)

/-- The pivot's month axis: after the reorder of lines 288-290 the rows
are in first-seen (chronological-rank) order. -/
def distinctMonths (rows : List Record) : List String :=
  uniqueFirstSeen (monthsOf rows)

/-- The pivot's particular axis: `pivot_table` sorts its column labels. -/
def distinctParticulars (rows : List Record) : List String :=
  sortStr (uniqueFirstSeen (particularsOf rows))

/-- All `(month, particular)` cells of the pivot table. -/
def pivotGrid (rows : List Record) : List (String × String) :=
  (distinctMonths rows).product (distinctParticulars rows)

/-- Whether a `(month, particular)` pair occurs in the input rows. -/
def pairPresent (rows : List Record) (mp : String × String) : Bool :=
  !(pairRows rows mp.1 mp.2).isEmpty

/-- Modelled from the spec: un-pivoting (melt) the pivot table yields
one `(month, particular, cell)` triple per grid cell; here restricted,
as the round-trip property is, to the pairs present in the input. -/
def meltPresent (rows : List Record) : List (String × String × Option Rat) :=
  ((pivotGrid rows).filter (pairPresent rows)).map
    (fun mp => (mp.1, mp.2, pivotCell rows mp.1 mp.2))

/-- The input rows as `(month, particular, value)` triples. -/
def origTriples (rows : List Record) : List (String × String × Option Rat) :=
  rows.map (fun r => (r.month, r.particular, r.rs))

/-- A raw row of a workbook sheet before cleaning. -/
structure RawRecord where
  particular : String
  month : String
  rs : Cell
deriving DecidableEq

/-- `pd.read_excel(url)` with its default `sheet_name=0`: the workbook's
first sheet by position, whatever its name; an empty or unreadable
workbook is a parse failure. -/
def read_excel_first (wb : List (String × List RawRecord)) :
    Except String (List RawRecord) :=
  match wb with
  | [] => Except.error "ParseError: workbook has no sheets"
  | (_, t) :: _ => Except.ok t

/-- Cleaning of one raw row: coerce the `Rs` cell. -/
def cleanRow (parse : String → Option Rat) (r : RawRecord) : Record :=
  ⟨r.particular, r.month, coerceRs parse r.rs⟩

/-- Cleaning of a whole sheet. -/
def cleanTable (parse : String → Option Rat) (t : List RawRecord) : List Record :=
  t.map (cleanRow parse)

/-- `load_data` (lines 97-110): read the workbook's first sheet, coerce
the `Rs` column, and attach `Month_Num` ranks. -/
def load_data (parse : String → Option Rat) (wb : List (String × List RawRecord)) :
    Except String (List (Record × Nat)) :=
  match read_excel_first wb with
  | Except.error e => Except.error e
  | Except.ok t => Except.ok (attachMonthNum (cleanTable parse t))

/-- Modelled from the spec: the claimed loader contract, which looks up
the sheets named "Data" and "NPA" and fails when either is absent. -/
def load_two_spec (wb : List (String × List RawRecord)) :
    Except String (List RawRecord × List RawRecord) :=
  match wb.lookup "Data", wb.lookup "NPA" with
  | some d, some n => Except.ok (d, n)
  | _, _ => Except.error "ParseError: sheet not found"

/-- Round a rational to the nearest integer, ties to even, as Python's
fixed-point float formatting does. -/
def roundHalfEven (q : Rat) : Int :=
  let f : Int := ⌊q⌋
  let r : Rat := q - (f : Rat)
  if r < 1 / 2 then f
  else if 1 / 2 < r then f + 1
  else if f % 2 = 0 then f else f + 1

/-- Two-digit zero-padded decimal rendering of a number below 100. -/
def twoDigits (k : Nat) : String :=
  (if k < 10 then "0" else "") ++ toString k

/-- Thousands grouping of a reversed digit list: a comma after every
third digit (the counter holds the digits still to emit before the
next comma). -/
def groupRevAux : List Char → Nat → List Char
  | [], _ => []
  | c :: rest, k =>
      if k = 0 then ',' :: c :: groupRevAux rest 2
      else c :: groupRevAux rest (k - 1)

/-- Python's `f"{n:,}"` on a natural number: decimal digits with
thousands separators. -/
def pyGroupNat (n : Nat) : String :=
  String.mk (groupRevAux (toString n).data.reverse 3).reverse

/-- Python's `f"{x:.2f}"`: fixed two decimals, no grouping. -/
def pyFixed2 (q : Rat) : String :=
  let n := roundHalfEven (q * 100)
  (if n < 0 then "-" else "") ++ toString (n.natAbs / 100) ++ "." ++ twoDigits (n.natAbs % 100)

/-- Python's `f"{x:,.2f}"`: fixed two decimals with thousands grouping
on the integer part. -/
def pyGroupedFixed2 (q : Rat) : String :=
  let n := roundHalfEven (q * 100)
  (if n < 0 then "-" else "") ++ pyGroupNat (n.natAbs / 100) ++ "." ++ twoDigits (n.natAbs % 100)

/-- The percentage display lambda of lines 404 and 588:
`f"{x:.2f}%" if not pd.isna(x) else "N/A"`. -/
def fmt_pct : Option Rat → String
  | none => "N/A"
  | some x => pyFixed2 x ++ "%"

/-- The amount display lambda of lines 159, 165, 254-255 and 585-587:
`f"{x:,.2f}" if not pd.isna(x) else "N/A"`. -/
def fmt_amount : Option Rat → String
  | none => "N/A"
  | some x => pyGroupedFixed2 x

/-- The record-count display of lines 153 and 170: `f"{n:,}"`. -/
def fmt_count (n : Nat) : String := pyGroupNat n

/-- `filtered_df['Rs'].sum()` (line 159): the skip-null sum, which
pandas returns as the number 0.0 (never NaN) when every value is
missing or the frame is empty. -/
def pandas_sum (rows : List Record) : Option Rat :=
  some ((rows.filterMap (·.rs)).foldl (· + ·) 0)

/-- `filtered_df['Rs'].mean()` (line 165): the skip-null mean, NaN when
there is no non-missing value. -/
def pandas_mean (rows : List Record) : Option Rat :=
  let vs := rows.filterMap (·.rs)
  if vs.isEmpty then none
  else some (vs.foldl (· + ·) 0 / (vs.length : Rat))

/-- The "Total Amount (Rs)" metric string of line 159. -/
def display_total (rows : List Record) : String := fmt_amount (pandas_sum rows)

/-- The "Average Amount (Rs)" metric string of line 165. -/
def display_mean (rows : List Record) : String := fmt_amount (pandas_mean rows)

/-- The spec's row-membership condition for C1: the particular is among
the selected particulars (or the selection is the sentinel), and the
analogous month condition. -/
def claimKeep (selP selM : List String) (r : Record) : Prop :=
  (selP = ["All"] ∨ r.particular ∈ selP) ∧ (selM = ["All"] ∨ r.month ∈ selM)

instance (selP selM : List String) (r : Record) : Decidable (claimKeep selP selM r) :=
  inferInstanceAs (Decidable ((selP = ["All"] ∨ r.particular ∈ selP) ∧
    (selM = ["All"] ∨ r.month ∈ selM)))

theorem mem_uniqueFirstSeenAux (l : List String) :
    ∀ (seen : List String) (x : String),
      x ∈ uniqueFirstSeenAux seen l ↔ x ∈ l ∧ x ∉ seen := by
  induction l with
  | nil => intro seen x; simp [uniqueFirstSeenAux]
  | cons m rest ih =>
    intro seen x
    by_cases hm : m ∈ seen
    · rw [uniqueFirstSeenAux, if_pos hm, ih]
      constructor
      · rintro ⟨h1, h2⟩; exact ⟨List.mem_cons_of_mem _ h1, h2⟩
      · rintro ⟨h1, h2⟩
        rcases List.mem_cons.mp h1 with h1 | h1
        · exact absurd (h1 ▸ hm) h2
        · exact ⟨h1, h2⟩
    · rw [uniqueFirstSeenAux, if_neg hm]
      constructor
      · intro h
        rcases List.mem_cons.mp h with h | h
        · exact ⟨h ▸ List.mem_cons_self m rest, h ▸ hm⟩
        · rcases (ih (m :: seen) x).mp h with ⟨h1, h2⟩
          exact ⟨List.mem_cons_of_mem _ h1, fun hx => h2 (List.mem_cons_of_mem _ hx)⟩
      · rintro ⟨h1, h2⟩
        by_cases hxm : x = m
        · exact hxm ▸ List.mem_cons_self m _
        · rcases List.mem_cons.mp h1 with h1 | h1
          · exact absurd h1 hxm
          · exact List.mem_cons_of_mem _ ((ih (m :: seen) x).mpr
              ⟨h1, fun hx => (List.mem_cons.mp hx).elim hxm h2⟩)

theorem nodup_uniqueFirstSeenAux (l : List String) :
    ∀ seen : List String, (uniqueFirstSeenAux seen l).Nodup := by
  induction l with
  | nil => intro seen; simp [uniqueFirstSeenAux]
  | cons m rest ih =>
    intro seen
    by_cases hm : m ∈ seen
    · rw [uniqueFirstSeenAux, if_pos hm]; exact ih seen
    · rw [uniqueFirstSeenAux, if_neg hm]
      refine List.nodup_cons.mpr ⟨fun hmem => ?_, ih (m :: seen)⟩
      exact ((mem_uniqueFirstSeenAux rest (m :: seen) m).mp hmem).2
        (List.mem_cons_self m seen)

theorem mem_uniqueFirstSeen (l : List String) (x : String) :
    x ∈ uniqueFirstSeen l ↔ x ∈ l := by
  rw [uniqueFirstSeen, mem_uniqueFirstSeenAux]
  simp

theorem nodup_uniqueFirstSeen (l : List String) : (uniqueFirstSeen l).Nodup :=
  nodup_uniqueFirstSeenAux l []

theorem idxOfStr_getElem (l : List String) (hnd : l.Nodup) :
    ∀ (i : Nat) (h : i < l.length), idxOfStr (l.get ⟨i, h⟩) l = i := by
  induction l with
  | nil => intro i h; exact absurd h (by simp)
  | cons x rest ih =>
    intro i h
    match i with
    | 0 => simp [idxOfStr]
    | i + 1 =>
      have hx : x ∉ rest := (List.nodup_cons.mp hnd).1
      have hne : x ≠ rest.get ⟨i, by simpa using h⟩ :=
        fun e => hx (e ▸ List.get_mem rest i (by simpa using h))
      show idxOfStr ((x :: rest).get ⟨i + 1, h⟩) (x :: rest) = i + 1
      rw [show (x :: rest).get ⟨i + 1, h⟩ = rest.get ⟨i, by simpa using h⟩ from rfl]
      rw [idxOfStr, if_neg hne]
      rw [ih (List.nodup_cons.mp hnd).2 i _]

/-- C1: for every row-set and every selection the filter keeps exactly
the rows whose particular is selected (every row when the particulars
selection is the sentinel "All"), intersected with the analogous month
condition; in particular the selection `{particulars: All, months:
{Jan}}` returns exactly the rows with month "Jan", all particulars. -/
theorem claim1_filter_semantics :
    (∀ selP selM rows,
        ("All" ∈ selP → selP = ["All"]) → ("All" ∈ selM → selM = ["All"]) →
        filtered_df selP selM rows
          = rows.filter (fun r => decide (claimKeep selP selM r))) ∧
    (∀ rows, filtered_df ["All"] ["Jan"] rows
        = rows.filter (fun r => decide (r.month = "Jan"))) := by
  constructor
  · intro selP selM rows hP hM
    have hsing : ("All" : String) ∈ (["All"] : List String) := by simp
    by_cases h1 : "All" ∈ selP
    · by_cases h2 : "All" ∈ selM
      · simp only [filtered_df, if_pos h1, if_pos h2]
        symm
        rw [List.filter_eq_self]
        intro r _
        exact decide_eq_true ⟨Or.inl (hP h1), Or.inl (hM h2)⟩
      · simp only [filtered_df, if_pos h1, if_neg h2]
        apply List.filter_congr
        intro r _
        rw [decide_eq_decide]
        constructor
        · intro h; exact ⟨Or.inl (hP h1), Or.inr h⟩
        · rintro ⟨-, hm2 | hm2⟩
          · exact absurd (hm2.symm ▸ hsing) h2
          · exact hm2
    · by_cases h2 : "All" ∈ selM
      · simp only [filtered_df, if_neg h1, if_pos h2]
        apply List.filter_congr
        intro r _
        rw [decide_eq_decide]
        constructor
        · intro h; exact ⟨Or.inr h, Or.inl (hM h2)⟩
        · rintro ⟨hp2 | hp2, -⟩
          · exact absurd (hp2.symm ▸ hsing) h1
          · exact hp2
      · simp only [filtered_df, if_neg h1, if_neg h2]
        rw [List.filter_filter]
        apply List.filter_congr
        intro r _
        rw [show (decide (r.month ∈ selM) && decide (r.particular ∈ selP))
              = decide (r.month ∈ selM ∧ r.particular ∈ selP) by
            by_cases hA : r.month ∈ selM <;> by_cases hB : r.particular ∈ selP <;>
              simp [hA, hB]]
        rw [decide_eq_decide]
        constructor
        · rintro ⟨hA, hB⟩; exact ⟨Or.inr hB, Or.inr hA⟩
        · rintro ⟨hp2 | hp2, hm2 | hm2⟩
          · exact absurd (hp2.symm ▸ hsing) h1
          · exact absurd (hp2.symm ▸ hsing) h1
          · exact absurd (hm2.symm ▸ hsing) h2
          · exact ⟨hm2, hp2⟩
  · intro rows
    simp only [filtered_df]
    rw [if_pos (show ("All" : String) ∈ (["All"] : List String) by simp)]
    rw [if_neg (show ("All" : String) ∉ (["Jan"] : List String) by simp)]
    apply List.filter_congr
    intro r _
    rw [decide_eq_decide]
    exact List.mem_singleton

theorem claim1_witness :
    (("All" ∈ (["A"] : List String) → (["A"] : List String) = ["All"]) ∧
     ("All" ∈ (["All"] : List String) → (["All"] : List String) = ["All"])) ∧
    filtered_df ["A"] ["All"] exampleRows
      = exampleRows.filter (fun r => decide (claimKeep ["A"] ["All"] r)) :=
  ⟨⟨by decide, fun _ => rfl⟩,
   claim1_filter_semantics.1 ["A"] ["All"] exampleRows (by decide) (fun _ => rfl)⟩

/-- C2 counterexample: with the selection `{"All", "A"}` the code does
not drop "All" — it returns every row, not the rows constrained to the
concrete label "A". -/
theorem claim2_counterexample :
    filtered_df ["All", "A"] ["All"] exampleRows = exampleRows ∧
    filtered_df ["All", "A"] ["All"] exampleRows
      ≠ exampleRows.filter (fun r => decide (r.particular ∈ (["A"] : List String))) := by
  constructor
  · rfl
  · decide

/-- C2 amended: when "All" is among the selected labels of a dimension
(even together with concrete labels), that dimension is unconstrained —
the selection behaves exactly like the sentinel alone, so the concrete
labels are the ones ignored, not "All". -/
theorem claim2_all_dominates :
    (∀ selP selM rows, "All" ∈ selP →
        filtered_df selP selM rows = filtered_df ["All"] selM rows) ∧
    (∀ selP selM rows, "All" ∈ selM →
        filtered_df selP selM rows = filtered_df selP ["All"] rows) := by
  constructor
  · intro selP selM rows h1
    simp only [filtered_df, if_pos h1,
      if_pos (show ("All" : String) ∈ (["All"] : List String) by simp)]
  · intro selP selM rows h2
    simp only [filtered_df, if_pos h2,
      if_pos (show ("All" : String) ∈ (["All"] : List String) by simp)]

theorem claim2_witness :
    ("All" ∈ (["All", "A"] : List String)) ∧
    filtered_df ["All", "A"] ["Jan"] exampleRows
      = filtered_df ["All"] ["Jan"] exampleRows :=
  ⟨by decide, claim2_all_dominates.1 ["All", "A"] ["Jan"] exampleRows (by decide)⟩

/-- C3: the value-column coercion is total — the dash placeholder
becomes missing (never zero), a cell that parses becomes that number, a
cell that fails to parse becomes missing, a numeric cell is kept and an
empty cell stays missing. -/
theorem claim3_coercion_total :
    (∀ parse, coerceRs parse (Cell.sval "-") = none) ∧
    (∀ parse s v, s ≠ "-" → parse s = some v →
        coerceRs parse (Cell.sval s) = some v) ∧
    (∀ parse s, parse s = none → coerceRs parse (Cell.sval s) = none) ∧
    (∀ parse q, coerceRs parse (Cell.nval q) = some q) ∧
    (∀ parse, coerceRs parse Cell.na = none) ∧
    (∀ parse, coerceRs parse (Cell.sval "-") ≠ some 0) := by
  refine ⟨fun parse => rfl, ?_, ?_, fun parse q => rfl, fun parse => rfl,
    fun parse => by simp [coerceRs, replaceDashNA, toNumericCoerce]⟩
  · intro parse s v hs hp
    rw [coerceRs, replaceDashNA, if_neg (fun e => hs (Cell.sval.injEq s "-" ▸ e))]
    · exact hp
  · intro parse s hp
    rw [coerceRs, replaceDashNA]
    by_cases he : Cell.sval s = Cell.sval "-"
    · rw [if_pos he]; rfl
    · rw [if_neg he]; exact hp

theorem claim3_witness :
    (("5" : String) ≠ "-" ∧ parseNat "5" = some 5) ∧
    coerceRs parseNat (Cell.sval "5") = some 5 :=
  ⟨⟨by decide, by decide⟩,
   claim3_coercion_total.2.1 parseNat "5" 5 (by decide) (by decide)⟩

/-- C4: the month ordering ranks distinct labels in first-seen order —
for the column `["Jan","Mar","Jan","Feb"]` the ranks are Jan=0, Mar=1,
Feb=2 — the rank of the i-th first-seen label is exactly i (hence
strictly increasing), and every row is annotated with the rank of its
own month label. -/
theorem claim4_month_ordering :
    (uniqueFirstSeen ["Jan", "Mar", "Jan", "Feb"] = ["Jan", "Mar", "Feb"] ∧
     monthRank ["Jan", "Mar", "Jan", "Feb"] "Jan" = 0 ∧
     monthRank ["Jan", "Mar", "Jan", "Feb"] "Mar" = 1 ∧
     monthRank ["Jan", "Mar", "Jan", "Feb"] "Feb" = 2) ∧
    (∀ l (i : Nat) (h : i < (uniqueFirstSeen l).length),
        monthRank l ((uniqueFirstSeen l).get ⟨i, h⟩) = i) ∧
    (∀ rows p, p ∈ attachMonthNum rows →
        p.2 = monthRank (monthsOf rows) p.1.month) := by
  refine ⟨⟨by decide, by decide, by decide, by decide⟩, ?_, ?_⟩
  · intro l i h
    exact idxOfStr_getElem (uniqueFirstSeen l) (nodup_uniqueFirstSeen l) i h
  · intro rows p hp
    rcases List.mem_map.mp hp with ⟨r, _, rfl⟩
    rfl

theorem claim4_witness :
    1 < (uniqueFirstSeen ["Jan", "Mar", "Jan", "Feb"]).length ∧
    monthRank ["Jan", "Mar", "Jan", "Feb"]
      ((uniqueFirstSeen ["Jan", "Mar", "Jan", "Feb"]).get ⟨1, by decide⟩) = 1 :=
  ⟨by decide, claim4_month_ordering.2.1 ["Jan", "Mar", "Jan", "Feb"] 1 (by decide)⟩

theorem shift1_length (vs : List PVal) : (shift1 vs).length = vs.length := by
  simp [shift1]

theorem shift1_getElem_succ (vs : List PVal) (i : Nat) (h : i + 1 < vs.length) :
    (shift1 vs)[i + 1]? = some vs[i] := by
  rw [shift1, List.getElem?_take_of_lt h, List.getElem?_cons_succ,
    List.getElem?_eq_getElem (by omega)]

theorem changeCol_getElem_succ (vs : List PVal) (i : Nat) (h : i + 1 < vs.length) :
    (changeCol vs)[i + 1]? = some (psub vs[i + 1] vs[i]) := by
  simp only [changeCol]
  rw [List.getElem?_zipWith, List.getElem?_eq_getElem h, shift1_getElem_succ vs i h]

theorem pctChangeCol_getElem_succ (vs : List PVal) (i : Nat) (h : i + 1 < vs.length) :
    (pctChangeCol vs)[i + 1]?
      = some (pmul100 (pdiv (psub vs[i + 1] vs[i]) vs[i])) := by
  simp only [pctChangeCol]
  rw [List.getElem?_zipWith, changeCol_getElem_succ vs i h, shift1_getElem_succ vs i h]

/-- C5 counterexample: for the series `[0, 10]` the code's `% Change`
column carries positive infinity at index 1, which is not the missing
value — pandas float division by a zero previous value produces `inf`,
not NaN. -/
theorem claim5_counterexample :
    (pctChangeCol [PVal.num 0, PVal.num 10])[1]? = some PVal.inf ∧
    some PVal.inf ≠ some PVal.na := by
  constructor
  · have h := pctChangeCol_getElem_succ [PVal.num 0, PVal.num 10] 0 (by simp)
    simpa [psub, pdiv, pmul100] using h
  · simp

/-- C5 amended: the period-over-period columns have the series' length,
`change[0]` and `pct_change[0]` are missing, `change[i] = value[i] -
value[i-1]` and `pct_change[i] = change[i] / value[i-1] * 100` under
IEEE float semantics; when the previous value is zero the pct-change at
the next index is `+inf` for a positive change, `-inf` for a negative
change, and missing only for a zero change — never an exception. -/
theorem claim5_period_over_period :
    (∀ vs : List PVal, (changeCol vs).length = vs.length ∧
        (pctChangeCol vs).length = vs.length) ∧
    (∀ (v : PVal) (rest : List PVal),
        (changeCol (v :: rest)).head? = some PVal.na ∧
        (pctChangeCol (v :: rest)).head? = some PVal.na) ∧
    (∀ (vs : List PVal) (i : Nat) (h : i + 1 < vs.length),
        (changeCol vs)[i + 1]? = some (psub vs[i + 1] vs[i]) ∧
        (pctChangeCol vs)[i + 1]?
          = some (pmul100 (pdiv (psub vs[i + 1] vs[i]) vs[i]))) ∧
    (∀ (vs : List PVal) (i : Nat) (h : i + 1 < vs.length) (c : Rat),
        vs[i] = PVal.num 0 → vs[i + 1] = PVal.num c →
        ((0 < c → (pctChangeCol vs)[i + 1]? = some PVal.inf) ∧
         (c < 0 → (pctChangeCol vs)[i + 1]? = some PVal.ninf) ∧
         (c = 0 → (pctChangeCol vs)[i + 1]? = some PVal.na))) := by
  refine ⟨?_, ?_, ?_, ?_⟩
  · intro vs
    have hs : (shift1 vs).length = vs.length := shift1_length vs
    constructor
    · simp [changeCol, hs]
    · simp [pctChangeCol, changeCol, hs]
  · intro v rest
    exact ⟨by cases v <;> rfl, by cases v <;> rfl⟩
  · intro vs i h
    exact ⟨changeCol_getElem_succ vs i h, pctChangeCol_getElem_succ vs i h⟩
  · intro vs i h c h0 h1
    rw [pctChangeCol_getElem_succ vs i h, h0, h1]
    refine ⟨fun hc => ?_, fun hc => ?_, fun hc => ?_⟩
    · simp [psub, pdiv, pmul100, hc]
    · simp [psub, pdiv, pmul100, hc, lt_asymm hc]
    · simp [psub, pdiv, pmul100, hc]

theorem claim5_witness :
    (0 + 1 < ([PVal.num 0, PVal.num 10] : List PVal).length ∧
     ([PVal.num 0, PVal.num 10] : List PVal)[0] = PVal.num 0 ∧
     ([PVal.num 0, PVal.num 10] : List PVal)[0 + 1] = PVal.num 10 ∧
     (0 : Rat) < 10) ∧
    (pctChangeCol [PVal.num 0, PVal.num 10])[0 + 1]? = some PVal.inf :=
  ⟨⟨by decide, rfl, rfl, by norm_num⟩,
   (claim5_period_over_period.2.2.2 [PVal.num 0, PVal.num 10] 0 (by decide) 10
      rfl rfl).1 (by norm_num)⟩

/-- C6: the aggregation itself computes skip-null sum, mean and count
per distinct month (for the example filtered to "A": Feb sum=200 and
Jan sum=100, mean=100, count=1), but `monthly_summary` then calls
`sort_values(by='Month_Num')` on a frame whose columns are only
`Month/sum/mean/count`, so the operation raises `KeyError: Month_Num`
instead of returning the rank-sorted summary. -/
theorem claim6_monthly_summary_keyerror :
    monthly_summary (filtered_df ["A"] ["All"] exampleRows)
      = Except.error "KeyError: Month_Num" ∧
    (∀ rows : List Record,
        monthly_summary rows = Except.error "KeyError: Month_Num") ∧
    groupAgg (filtered_df ["A"] ["All"] exampleRows)
      = [("Feb", 200, some 200, 1), ("Jan", 100, some 100, 1)] := by
  refine ⟨rfl, fun rows => rfl, ?_⟩
  simp [groupAgg, aggRow, monthGroupVals, sortStr, insertSortedStr,
    uniqueFirstSeen, uniqueFirstSeenAux, monthsOf, filtered_df, exampleRows,
    show (['F', 'e', 'b'] : List Char) < ['J', 'a', 'n'] from by decide]

/-- The pivot grouping key of a row: its (month, particular) pair. -/
def pairKey (r : Record) : String × String := (r.month, r.particular)

theorem insertSortedStr_perm (s : String) (l : List String) :
    List.Perm (insertSortedStr s l) (s :: l) := by
  induction l with
  | nil => exact List.Perm.refl _
  | cons t rest ih =>
    by_cases h : t < s
    · rw [insertSortedStr, if_pos h]
      exact List.Perm.trans (List.Perm.cons t ih) (List.Perm.swap s t rest)
    · rw [insertSortedStr, if_neg h]

theorem sortStr_perm (l : List String) : List.Perm (sortStr l) l := by
  induction l with
  | nil => exact List.Perm.refl _
  | cons x rest ih =>
    exact List.Perm.trans (insertSortedStr_perm x (sortStr rest)) (List.Perm.cons x ih)

theorem mem_sortStr (l : List String) (x : String) : x ∈ sortStr l ↔ x ∈ l :=
  (sortStr_perm l).mem_iff

theorem nodup_sortStr (l : List String) (h : l.Nodup) : (sortStr l).Nodup :=
  ((sortStr_perm l).nodup_iff).mpr h

theorem pairRows_single (rows : List Record) (hU : (rows.map pairKey).Nodup) :
    ∀ r ∈ rows, pairRows rows r.month r.particular = [r] := by
  induction rows with
  | nil => intro r hr; cases hr
  | cons s rest ih =>
    intro r hr
    rw [List.map_cons] at hU
    have hs : pairKey s ∉ rest.map pairKey := (List.nodup_cons.mp hU).1
    have hU' : (rest.map pairKey).Nodup := (List.nodup_cons.mp hU).2
    rcases List.mem_cons.mp hr with rfl | hr'
    · simp only [pairRows]
      rw [List.filter_cons_of_pos (by simp)]
      have hnil :
          List.filter (fun x => x.month == r.month && x.particular == r.particular)
            rest = [] := by
        rw [List.filter_eq_nil_iff]
        intro x hx hcond
        apply hs
        have hkx : pairKey x = pairKey r := by
          simp only [Bool.and_eq_true, beq_iff_eq] at hcond
          simp [pairKey, hcond.1, hcond.2]
        exact hkx ▸ List.mem_map_of_mem pairKey hx
      rw [hnil]
    · have hkey : pairKey s ≠ pairKey r :=
        fun e => hs (e ▸ List.mem_map_of_mem pairKey hr')
      simp only [pairRows]
      rw [List.filter_cons_of_neg ?neg]
      case neg =>
        intro hcond
        apply hkey
        simp only [Bool.and_eq_true, beq_iff_eq] at hcond
        simp [pairKey, hcond.1, hcond.2]
      exact ih hU' r hr'

theorem pivotCell_single (rows : List Record) (hU : (rows.map pairKey).Nodup)
    (r : Record) (hr : r ∈ rows) (v : Rat) (hv : r.rs = some v) :
    pivotCell rows r.month r.particular = some v := by
  simp only [pivotCell]
  rw [pairRows_single rows hU r hr]
  simp [hv]

theorem pairPresent_iff (rows : List Record) (mp : String × String) :
    pairPresent rows mp = true
      ↔ ∃ r ∈ rows, r.month = mp.1 ∧ r.particular = mp.2 := by
  simp [pairPresent, pairRows, List.isEmpty_iff, List.filter_eq_nil_iff]

theorem nodup_meltPresent (rows : List Record) : (meltPresent rows).Nodup := by
  apply List.Nodup.map
  · intro a b h
    have h1 : a.1 = b.1 := congrArg (fun t => t.1) h
    have h2 : a.2 = b.2 := congrArg (fun t => t.2.1) h
    exact Prod.ext_iff.mpr ⟨h1, h2⟩
  · apply List.Nodup.filter
    exact List.Nodup.product (nodup_uniqueFirstSeen _)
      (nodup_sortStr _ (nodup_uniqueFirstSeen _))

theorem nodup_origTriples (rows : List Record)
    (hU : (rows.map pairKey).Nodup) : (origTriples rows).Nodup := by
  have h : (origTriples rows).map (fun t => (t.1, t.2.1)) = rows.map pairKey := by
    simp only [origTriples, List.map_map]
    rfl
  exact List.Nodup.of_map _ (h.symm ▸ hU)

theorem mem_meltPresent_iff (rows : List Record)
    (hU : (rows.map pairKey).Nodup) (hV : ∀ r ∈ rows, r.rs ≠ none)
    (t : String × String × Option Rat) :
    t ∈ meltPresent rows ↔ t ∈ origTriples rows := by
  constructor
  · intro ht
    rcases List.mem_map.mp ht with ⟨mp, hmp, rfl⟩
    rcases List.mem_filter.mp hmp with ⟨-, hpres⟩
    rcases (pairPresent_iff rows mp).mp hpres with ⟨r, hr, h1, h2⟩
    have hmp' : mp = (r.month, r.particular) :=
      Prod.ext_iff.mpr ⟨h1.symm, h2.symm⟩
    subst hmp'
    rcases Option.ne_none_iff_exists'.mp (hV r hr) with ⟨v, hv⟩
    rw [pivotCell_single rows hU r hr v hv, ← hv]
    exact List.mem_map_of_mem _ hr
  · intro ht
    rcases List.mem_map.mp ht with ⟨r, hr, rfl⟩
    rcases Option.ne_none_iff_exists'.mp (hV r hr) with ⟨v, hv⟩
    apply List.mem_map.mpr
    refine ⟨(r.month, r.particular), List.mem_filter.mpr ⟨?_, ?_⟩, ?_⟩
    · apply List.pair_mem_product.mpr
      constructor
      · exact (mem_uniqueFirstSeen _ _).mpr (List.mem_map_of_mem _ hr)
      · exact (mem_sortStr _ _).mpr
          ((mem_uniqueFirstSeen _ _).mpr (List.mem_map_of_mem _ hr))
    · exact (pairPresent_iff rows (r.month, r.particular)).mpr ⟨r, hr, rfl, rfl⟩
    · rw [pivotCell_single rows hU r hr v hv, hv]

/-- C7 counterexample: for a row-set in which the pair (A, Jan) repeats,
the pivot sums the two values into one cell, so un-pivoting yields the
single summed triple and the round-trip does not recover the original
triples (even modulo row order). -/
theorem claim7_counterexample :
    meltPresent [⟨"A", "Jan", some 100⟩, ⟨"A", "Jan", some 50⟩]
      = [("Jan", "A", some 150)] ∧
    origTriples [⟨"A", "Jan", some 100⟩, ⟨"A", "Jan", some 50⟩]
      = [("Jan", "A", some 100), ("Jan", "A", some 50)] ∧
    ¬ List.Perm
        (meltPresent [⟨"A", "Jan", some 100⟩, ⟨"A", "Jan", some 50⟩])
        (origTriples [⟨"A", "Jan", some 100⟩, ⟨"A", "Jan", some 50⟩]) := by
  have hm : meltPresent [⟨"A", "Jan", some 100⟩, ⟨"A", "Jan", some 50⟩]
      = [("Jan", "A", some 150)] := by
    norm_num [meltPresent, pivotGrid, distinctMonths, distinctParticulars,
      uniqueFirstSeen, uniqueFirstSeenAux, monthsOf, particularsOf, sortStr,
      insertSortedStr, pairPresent, pairRows, pivotCell, List.product,
      List.filterMap_cons]
  refine ⟨hm, rfl, fun hp => ?_⟩
  rw [hm] at hp
  have hlen := hp.length_eq
  simp [origTriples] at hlen

/-- C7 amended: for every row-set in which each (particular, month)
pair occurs at most once and every value is present, pivoting then
un-pivoting recovers the original (month, particular, value) triples
modulo row order; with repeated pairs the pivot instead sums them. -/
theorem claim7_pivot_roundtrip (rows : List Record)
    (hU : (rows.map pairKey).Nodup)
    (hV : ∀ r ∈ rows, r.rs ≠ none) :
    List.Perm (meltPresent rows) (origTriples rows) :=
  (List.perm_ext_iff_of_nodup (nodup_meltPresent rows)
      (nodup_origTriples rows hU)).mpr
    (mem_meltPresent_iff rows hU hV)

theorem claim7_witness :
    ((exampleRows.map pairKey).Nodup ∧ ∀ r ∈ exampleRows, r.rs ≠ none) ∧
    List.Perm (meltPresent exampleRows) (origTriples exampleRows) :=
  ⟨⟨by decide, by decide⟩,
   claim7_pivot_roundtrip exampleRows (by decide) (by decide)⟩

/-- C8 counterexample: on a workbook that has both an "NPA" and a
"Data" sheet (in that order), the claimed contract finds both sheets by
name, but `load_data` — `pd.read_excel` with its default sheet — returns
a single row-set read from the first sheet, which is not the "Data"
sheet, and returns no second row-set at all. -/
theorem claim8_counterexample :
    load_two_spec [("NPA", [⟨"npaX", "Jan", Cell.nval 1⟩]),
        ("Data", [⟨"A", "Jan", Cell.nval 100⟩])]
      = Except.ok ([⟨"A", "Jan", Cell.nval 100⟩], [⟨"npaX", "Jan", Cell.nval 1⟩]) ∧
    load_data parseNat [("NPA", [⟨"npaX", "Jan", Cell.nval 1⟩]),
        ("Data", [⟨"A", "Jan", Cell.nval 100⟩])]
      = Except.ok (attachMonthNum (cleanTable parseNat
          [⟨"npaX", "Jan", Cell.nval 1⟩])) ∧
    attachMonthNum (cleanTable parseNat [⟨"npaX", "Jan", Cell.nval 1⟩])
      ≠ attachMonthNum (cleanTable parseNat [⟨"A", "Jan", Cell.nval 100⟩]) := by
  refine ⟨rfl, rfl, ?_⟩
  intro h
  have := congrArg (fun l => l.map (fun p => p.1.particular)) h
  simp [attachMonthNum, cleanTable, cleanRow] at this

/-- C8 amended: the loader returns a single row-set, read from the
workbook's first sheet whatever that sheet is named (it never looks up
the "Data" or "NPA" sheet by name and produces no second table), and an
empty workbook fails with a parse error rather than yielding a partial
result. -/
theorem claim8_loader_first_sheet :
    (∀ parse, load_data parse [] = Except.error "ParseError: workbook has no sheets") ∧
    (∀ parse (name : String) (t : List RawRecord) rest,
        load_data parse ((name, t) :: rest)
          = Except.ok (attachMonthNum (cleanTable parse t))) :=
  ⟨fun _ => rfl, fun _ _ _ _ => rfl⟩

/-- C9 counterexample: the percentage display lambda does not multiply
by 100 — applied to 0.1025 it renders "0.10%", not the claimed
"10.25%". -/
theorem claim9_counterexample :
    fmt_pct (some (41 / 400)) = "0.10%" ∧ "0.10%" ≠ "10.25%" := by
  constructor
  · have h : roundHalfEven ((41 : Rat) / 400 * 100) = 10 := by
      norm_num [roundHalfEven]
    simp only [fmt_pct, pyFixed2, h]
    decide
  · decide

/-- C9 amended: the percentage formatter renders its argument as-is
with two decimals and a "%" (the scaling by 100 happens upstream in the
pct-change computation, so the pre-scaled 10.25 renders as "10.25%"),
the count formatter inserts thousands separators with zero decimals,
and a missing value renders as "N/A" under the percentage and amount
formatters. -/
theorem claim9_formatter :
    fmt_pct none = "N/A" ∧ fmt_amount none = "N/A" ∧
    fmt_count 1234567 = "1,234,567" ∧
    fmt_pct (some (41 / 400)) = "0.10%" ∧
    fmt_pct (some (1025 / 100)) = "10.25%" ∧
    fmt_amount (some 1234567) = "1,234,567.00" := by
  refine ⟨rfl, rfl, by decide, ?_, ?_, ?_⟩
  · have h : roundHalfEven ((41 : Rat) / 400 * 100) = 10 := by
      norm_num [roundHalfEven]
    simp only [fmt_pct, pyFixed2, h]
    decide
  · have h : roundHalfEven ((1025 : Rat) / 100 * 100) = 1025 := by
      norm_num [roundHalfEven]
    simp only [fmt_pct, pyFixed2, h]
    decide
  · have h : roundHalfEven ((1234567 : Rat) * 100) = 123456700 := by
      norm_num [roundHalfEven]
    simp only [fmt_amount, pyGroupedFixed2, h]
    decide

/-- C10: over a filtered row-set whose value cells are all missing
(including the empty row-set), the displayed total is the number
"0.00" — pandas' skip-null sum of an all-missing column is 0.0, not
NaN — while the displayed mean is the missing placeholder "N/A". -/
theorem claim10_all_missing_display (rows : List Record)
    (h : ∀ r ∈ rows, r.rs = none) :
    display_total rows = "0.00" ∧ display_mean rows = "N/A" := by
  have hfm : rows.filterMap (·.rs) = [] := List.filterMap_eq_nil_iff.mpr h
  constructor
  · have h0 : roundHalfEven ((0 : Rat) * 100) = 0 := by
      norm_num [roundHalfEven]
    simp only [display_total, pandas_sum, hfm, List.foldl_nil, fmt_amount,
      pyGroupedFixed2, h0]
    decide
  · simp [display_mean, pandas_mean, hfm, fmt_amount]

theorem claim10_witness :
    (∀ r ∈ ([⟨"A", "Jan", none⟩] : List Record), r.rs = none) ∧
    display_total [⟨"A", "Jan", none⟩] = "0.00" ∧
    display_mean [⟨"A", "Jan", none⟩] = "N/A" :=
  ⟨by decide,
   (claim10_all_missing_display [⟨"A", "Jan", none⟩] (by decide)).1,
   (claim10_all_missing_display [⟨"A", "Jan", none⟩] (by decide)).2⟩
